import Mathlib

/-!
Verification of the hello-mcp capability host against its specification.

The tool and resource modules (src/tools/helloWorld.js, helloName.js,
greetName.js, listLanguages.js, src/resources/languages.js) and the
registration module (src/mcp.js) are embedded directly from the source.
The SDK-internal parts (schema validation, request dispatch, the logging
channel) and the data file src/data/greetings.js are not in the source
tree; they are modelled from the specification and marked as such.
-/

namespace HelloMcp

/-- A JavaScript value as it flows through the handlers: strings, numbers,
booleans, `undefined`, and opaque objects/functions (carrying only their
string coercion, which is all the handlers use of them). -/
inductive JsValue where
  | undefined
  | str (s : String)
  | num (n : Int)
  | bool (b : Bool)
  | obj (display : String)
deriving DecidableEq, Repr

/-- JavaScript truthiness, as tested by `if (!greeting)` in greetName.js:
`undefined`, the empty string, 0 and false are falsy; every object or
function is truthy. -/
def truthy : JsValue → Bool
  | .undefined => false
  | .str s => s ≠ ""
  | .num n => n ≠ 0
  | .bool b => b
  | .obj _ => true

/-- JavaScript string coercion as performed by template literals. -/
def jsToString : JsValue → String
  | .undefined => "undefined"
  | .str s => s
  | .num n => toString n
  | .bool b => cond b "true" "false"
  | .obj d => d

/-- The own enumerable data properties of `Object.prototype`, which every
plain-object literal inherits: a bracket lookup `o[k]` that misses the own
properties continues into these, and each of them is a truthy
function/object value. -/
def protoProps : List (String × JsValue) :=
  [("constructor", .obj "function Object() \x7b [native code] \x7d"),
   ("hasOwnProperty", .obj "function hasOwnProperty() \x7b [native code] \x7d"),
   ("isPrototypeOf", .obj "function isPrototypeOf() \x7b [native code] \x7d"),
   ("propertyIsEnumerable", .obj "function propertyIsEnumerable() \x7b [native code] \x7d"),
   ("toLocaleString", .obj "function toLocaleString() \x7b [native code] \x7d"),
   ("toString", .obj "function toString() \x7b [native code] \x7d"),
   ("valueOf", .obj "function valueOf() \x7b [native code] \x7d"),
   ("__defineGetter__", .obj "function __defineGetter__() \x7b [native code] \x7d"),
   ("__defineSetter__", .obj "function __defineSetter__() \x7b [native code] \x7d"),
   ("__lookupGetter__", .obj "function __lookupGetter__() \x7b [native code] \x7d"),
   ("__lookupSetter__", .obj "function __lookupSetter__() \x7b [native code] \x7d"),
   ("__proto__", .obj "[object Object]")]

/-- Own-property lookup on a plain-object mapping (insertion-ordered
association list of string keys to string values). -/
def ownGet (g : List (String × String)) (key : String) : Option String :=
  (g.find? (fun p => p.1 == key)).map Prod.snd

/-- JavaScript property read `g[key]` on a plain-object literal: the own
property if present, otherwise the inherited `Object.prototype` property,
otherwise `undefined`. This is the semantics of `greetings[language]` in
src/tools/greetName.js. -/
def jsGet (g : List (String × String)) (key : String) : JsValue :=
  match ownGet g key with
  | some s => .str s
  | none =>
    match protoProps.find? (fun p => p.1 == key) with
    | some p => p.2
    | none => .undefined

/-- `Object.keys` on a plain-object mapping with non-index string keys:
the own keys in insertion order (inherited properties excluded). -/
def objKeys (g : List (String × String)) : List String :=
  g.map Prod.fst

/-- Modelled from the spec: the greetings data file src/data/greetings.js
is not in the source tree. Section 8 fixes the mapping used by the
end-to-end properties as a plain object containing french ↦ Bonjour. -/
def greetings : List (String × String) :=
  [("french", "Bonjour")]

/-- An argument object as decoded from a call-action request. -/
abbrev ArgObj := List (String × JsValue)

/-- JavaScript destructuring read of a parameter from the argument object:
a missing key reads as `undefined`. -/
def argGet (args : ArgObj) (key : String) : JsValue :=
  match args.find? (fun p => p.1 == key) with
  | some p => p.2
  | none => .undefined

/-- LogEvent severity levels (spec section 3). -/
inductive LogLevel where
  | debug
  | info
  | warning
  | error
deriving DecidableEq, Repr

/-- A structured log event emitted through the Notification Channel. -/
structure LogEvent where
  level : LogLevel
  message : String
deriving DecidableEq, Repr

/-- A content item of an Outcome; only the `text` variant occurs. -/
inductive ContentItem where
  | text (s : String)
deriving DecidableEq, Repr

/-- The response envelope of an Action call: `content` plus the optional
`isError` flag (absent on success, `true` on a Recoverable Failure). -/
structure ToolResult where
  content : List ContentItem
  isError : Option Bool
deriving DecidableEq, Repr

/-- The outcome of running a capability body: a returned envelope, or an
exception escaping the body (not expressed as a Recoverable Failure). -/
inductive InvokeResult where
  | ok (r : ToolResult)
  | threw (e : String)
deriving DecidableEq, Repr

/-- The only field type declared by the tools of this host: `z.string()`. -/
inductive FieldType where
  | string
deriving DecidableEq, Repr

/-- A declared input shape: argument-name to typed field, in declaration
order. -/
abbrev InputShape := List (String × FieldType)

/-- Whether an argument value satisfies a declared field type. -/
def matchesType : JsValue → FieldType → Bool
  | .str _, .string => true
  | _, .string => false

/-- Whether the argument object supplies the declared field with the right
primitive type: a missing required field or a wrong-typed one fails. -/
def fieldOk (args : ArgObj) (fd : String × FieldType) : Bool :=
  match args.find? (fun p => p.1 == fd.1) with
  | some p => matchesType p.2 fd.2
  | none => false

/-- Modelled from the spec: the Schema Validator (section 4.2) is SDK code
absent from the source tree. It checks each declared field for presence
and primitive type, reporting the first violation. -/
def validateShape : InputShape → ArgObj → Except String ArgObj
  | [], args => .ok args
  | fd :: rest, args =>
    if fieldOk args fd then validateShape rest args
    else .error ("Invalid arguments: field " ++ fd.1)

/-- Modelled from the spec: an absent input shape accepts any argument
mapping without inspection (section 4.2). -/
def validate : Option InputShape → ArgObj → Except String ArgObj
  | none, args => .ok args
  | some shape, args => validateShape shape args

/-- An Action capability record: name, description, optional input shape,
and the body, which emits an ordered list of LogEvents and produces an
InvokeResult. -/
structure ActionCap where
  name : String
  description : String
  inputSchema : Option InputShape
  invoke : ArgObj → List LogEvent × InvokeResult

/-- The resource read envelope item: `{ uri, text }`. -/
structure ResourceContent where
  uri : String
  text : String
deriving DecidableEq, Repr

/-- The resource read envelope: `{ contents: [...] }`. -/
structure ResourceResult where
  contents : List ResourceContent
deriving DecidableEq, Repr

/-- The outcome of running a resource reader body. -/
inductive ReadOutcome where
  | ok (r : ResourceResult)
  | threw (e : String)
deriving DecidableEq, Repr

/-- A Readable capability record (spec section 3). -/
structure ResourceCap where
  name : String
  uri : String
  description : String
  mimeType : String
  read : ReadOutcome
deriving Repr

/-- src/tools/helloWorld.js: no input shape, constant greeting. -/
def helloWorldCap : ActionCap where
  name := "hello_world"
  description := "Returns a Hello, World! greeting"
  inputSchema := none
  invoke := fun _ => ([], .ok { content := [.text "Hello, World!"], isError := none })

/-- src/tools/helloName.js: one required string input `name`. -/
def helloNameCap : ActionCap where
  name := "hello_name"
  description := "Returns a personalized Hello greeting"
  inputSchema := some [("name", .string)]
  invoke := fun args =>
    ([], .ok { content := [.text ("Hello, " ++ jsToString (argGet args "name") ++ "!")],
               isError := none })

/-- The info log message of greetName.js. -/
def greetInfoMsg (nm lang : String) : String :=
  "greet_name called with name=\"" ++ nm ++ "\", language=\"" ++ lang ++ "\""

/-- The warning log message of greetName.js. -/
def greetWarnMsg (lang : String) : String :=
  "Unsupported language requested: \"" ++ lang ++ "\""

/-- The debug log message of greetName.js. -/
def greetDebugMsg (greeting : String) : String :=
  "Greeting resolved: \"" ++ greeting ++ "\""

/-- The Recoverable Failure message of greetName.js. -/
def greetErrMsg (lang : String) : String :=
  "Unsupported language: \"" ++ lang ++
    "\". Check the languages resource for supported options."

/-- The body of src/tools/greetName.js's handler (the function returned by
`createHandler(server)`), parameterised by the greetings mapping: log the
call at info level, look the language up in the greetings object, and
either return the Recoverable Failure (after a warning log) or the
greeting (after a debug log). The emitted LogEvents are returned in
emission order. -/
def greetNameInvoke (g : List (String × String)) (args : ArgObj) :
    List LogEvent × InvokeResult :=
  let nm := jsToString (argGet args "name")
  let lang := jsToString (argGet args "language")
  let ev1 : LogEvent := ⟨.info, greetInfoMsg nm lang⟩
  let greeting := jsGet g lang
  if !(truthy greeting) then
    ([ev1, ⟨.warning, greetWarnMsg lang⟩],
     .ok { content := [.text (greetErrMsg lang)], isError := some true })
  else
    ([ev1, ⟨.debug, greetDebugMsg (jsToString greeting)⟩],
     .ok { content := [.text (jsToString greeting ++ ", " ++ nm ++ "!")],
           isError := none })

/-- src/tools/greetName.js: two required string inputs, handler above. -/
def greetNameCap (g : List (String × String)) : ActionCap where
  name := "greet_name"
  description := "Returns a personalized greeting in the specified language. Check the languages resource for supported languages."
  inputSchema := some [("name", .string), ("language", .string)]
  invoke := greetNameInvoke g

/-- src/tools/listLanguages.js: no input shape, joins the greetings keys. -/
def listLanguagesCap (g : List (String × String)) : ActionCap where
  name := "list_languages"
  description := "Returns the list of supported greeting languages"
  inputSchema := none
  invoke := fun _ =>
    ([], .ok { content := [.text (String.intercalate ", " (objKeys g))],
               isError := none })

/-- One hexadecimal digit, lowercase, as JSON.stringify prints them. -/
def hexDigit (n : Nat) : String :=
  String.singleton (if n < 10 then Char.ofNat (48 + n) else Char.ofNat (87 + n))

/-- JSON string escaping as performed by JSON.stringify on one character. -/
def jsonEscapeChar (c : Char) : String :=
  if c = '"' then "\\\""
  else if c = '\\' then "\\\\"
  else if c = '\x08' then "\\b"
  else if c = '\x0c' then "\\f"
  else if c = '\n' then "\\n"
  else if c = '\r' then "\\r"
  else if c = '\t' then "\\t"
  else if c.toNat < 32 then "\\u00" ++ hexDigit (c.toNat / 16) ++ hexDigit (c.toNat % 16)
  else String.singleton c

/-- A JSON string literal for `s`, as JSON.stringify prints it. -/
def jsonQuote (s : String) : String :=
  "\"" ++ String.join (s.data.map jsonEscapeChar) ++ "\""

/-- `JSON.stringify(keys, null, 2)` on an array of strings: the 2-space
indented multi-line array (and `[]` when empty), as computed in
src/resources/languages.js. -/
def jsonStringifyKeys2 : List String → String
  | [] => "[]"
  | ks => "[\n" ++ String.intercalate ",\n" (ks.map (fun k => "  " ++ jsonQuote k)) ++ "\n]"

/-- src/resources/languages.js: the reader returns the fixed uri and the
JSON serialization of the greetings keys. -/
def languagesReader (g : List (String × String)) : ResourceResult where
  contents := [{ uri := "languages://list", text := jsonStringifyKeys2 (objKeys g) }]

/-- src/resources/languages.js: the registered resource record. -/
def languagesCap (g : List (String × String)) : ResourceCap where
  name := "languages"
  uri := "languages://list"
  description := "List of supported greeting languages"
  mimeType := "application/json"
  read := .ok (languagesReader g)

/-- Modelled from the spec: the Capability Registry (section 4.1) lives
inside the SDK's server object, absent from the source tree. It holds the
registered actions and resources in registration order. -/
structure Registry where
  actions : List ActionCap
  resources : List ResourceCap

/-- Registration appends, preserving registration order. -/
def Registry.registerTool (reg : Registry) (cap : ActionCap) : Registry :=
  { reg with actions := reg.actions ++ [cap] }

/-- Resource registration appends, preserving registration order. -/
def Registry.registerResource (reg : Registry) (cap : ResourceCap) : Registry :=
  { reg with resources := reg.resources ++ [cap] }

/-- src/mcp.js: the server with its registration sequence — hello_world,
hello_name, greet_name, list_languages, then the languages resource. -/
def server (g : List (String × String)) : Registry :=
  (((((Registry.mk [] []).registerTool helloWorldCap).registerTool
    helloNameCap).registerTool (greetNameCap g)).registerTool
    (listLanguagesCap g)).registerResource (languagesCap g)

/-- Modelled from the spec: `resolveAction` looks an Action up by name
(section 4.1). -/
def resolveAction (reg : Registry) (nm : String) : Option ActionCap :=
  reg.actions.find? (fun c => c.name == nm)

/-- Modelled from the spec: `resolveResource` looks a Readable up by uri
(section 4.1). -/
def resolveResource (reg : Registry) (uri : String) : Option ResourceCap :=
  reg.resources.find? (fun c => c.uri == uri)

/-- A discovery envelope entry for an Action. -/
structure ActionInfo where
  name : String
  description : String
deriving DecidableEq, Repr

/-- A discovery envelope entry for a Readable. -/
structure ResourceInfo where
  name : String
  uri : String
  description : String
  mimeType : String
deriving DecidableEq, Repr

/-- Modelled from the spec: `listActions` returns the registered Actions in
registration order and leaves the registry unchanged (sections 4.1, 4.3). -/
def listActions (reg : Registry) : List ActionInfo × Registry :=
  (reg.actions.map (fun c => ⟨c.name, c.description⟩), reg)

/-- Modelled from the spec: `listResources` returns the registered
Readables in registration order and leaves the registry unchanged. -/
def listResources (reg : Registry) : List ResourceInfo × Registry :=
  (reg.resources.map (fun c => ⟨c.name, c.uri, c.description, c.mimeType⟩), reg)

/-- The Protocol Fault kinds of section 7. -/
inductive Fault where
  | notFound
  | invalidParams
  | internalError
deriving DecidableEq, Repr

/-- Modelled from the spec: the numeric protocol codes — InvalidParams is
-32602, NotFound and InternalError use the standard protocol codes. -/
def faultCode : Fault → Int
  | .notFound => -32601
  | .invalidParams => -32602
  | .internalError => -32603

/-- The Dispatch Core's answer for a call-action request: a response
envelope or a Protocol Fault (never a propagated exception). -/
inductive DispatchResult where
  | ok (r : ToolResult)
  | fault (f : Fault)
deriving DecidableEq, Repr

/-- The observable outcome of dispatching one call-action request: the
result, the LogEvents emitted during the invocation, and how many times
the capability body was entered. -/
structure CallOutcome where
  result : DispatchResult
  logs : List LogEvent
  invoked : Nat
deriving DecidableEq, Repr

/-- Modelled from the spec: the Dispatch Core's per-request state machine
(section 4.3) — resolve the Action, validate the arguments, invoke the
body, convert an escaping exception to Protocol Fault InternalError. -/
def dispatchCallAction (reg : Registry) (nm : String) (args : ArgObj) : CallOutcome :=
  match resolveAction reg nm with
  | none => { result := .fault .notFound, logs := [], invoked := 0 }
  | some cap =>
    match validate cap.inputSchema args with
    | .error _ => { result := .fault .invalidParams, logs := [], invoked := 0 }
    | .ok validArgs =>
      match cap.invoke validArgs with
      | (logs, .ok r) => { result := .ok r, logs := logs, invoked := 1 }
      | (logs, .threw _) => { result := .fault .internalError, logs := logs, invoked := 1 }

/-- The Dispatch Core's answer for a read-resource request. -/
inductive ReadDispatchResult where
  | ok (r : ResourceResult)
  | fault (f : Fault)
deriving DecidableEq, Repr

/-- Modelled from the spec: dispatch of a read-resource request — resolve
by uri, run the reader, convert an escaping exception to InternalError. -/
def dispatchReadResource (reg : Registry) (uri : String) : ReadDispatchResult :=
  match resolveResource reg uri with
  | none => .fault .notFound
  | some cap =>
    match cap.read with
    | .ok r => .ok r
    | .threw _ => .fault .internalError

/-- One observable wire event of a single request, in delivery order: a
log notification or the final response. Each `sendLoggingMessage` in the
handler is awaited before the handler continues, and the response is sent
only after the handler returns, so the emitted LogEvents precede the
response on the wire. -/
inductive Event where
  | log (e : LogEvent)
  | response (r : DispatchResult)
deriving DecidableEq, Repr

/-- The wire-event trace of one dispatched call-action request: the
emitted LogEvents in emission order, then the response. -/
def callEvents (c : CallOutcome) : List Event :=
  c.logs.map Event.log ++ [Event.response c.result]

/-- The delivered-events sink of a bound transport session. -/
abbrev Sink := List LogEvent

/-- Modelled from the spec: `emit(level, message)` on the Notification
Channel (section 4.4) — delivers to the bound session, and is a no-op
(no block, no exception, no failure) when no session is active. -/
def emitLog : Option Sink → LogEvent → Option Sink
  | none, _ => none
  | some evs, e => some (evs ++ [e])

/-- Deliver a whole emission sequence through the Notification Channel. -/
def deliverAll (session : Option Sink) (logs : List LogEvent) : Option Sink :=
  logs.foldl emitLog session

/-- Run one capability invocation against a (possibly absent) transport
session: every emitted LogEvent goes through the Notification Channel, and
the invocation's own outcome is produced regardless. -/
def runInvocation (session : Option Sink) (body : List LogEvent × InvokeResult) :
    Option Sink × InvokeResult :=
  (deliverAll session body.1, body.2)

/-- A capability whose body raises an exception, used to exercise the
Dispatch Core's exception boundary. -/
def crashCap : ActionCap where
  name := "crash_tool"
  description := "a capability whose body raises"
  inputSchema := none
  invoke := fun _ => ([], .threw "boom")

/-- A resource whose reader raises an exception. -/
def crashResourceCap : ResourceCap where
  name := "crash_resource"
  uri := "crash://resource"
  description := "a reader that raises"
  mimeType := "text/plain"
  read := .threw "boom"

/-- A registry holding the crashing capabilities. -/
def crashReg : Registry where
  actions := [crashCap]
  resources := [crashResourceCap]

/-- If some declared field of the shape is missing from the arguments or
carries the wrong primitive type, validation reports a violation. -/
theorem validateShape_error_of_bad (shape : InputShape) (args : ArgObj)
    (h : ∃ fd, fd ∈ shape ∧ fieldOk args fd = false) :
    ∃ msg, validateShape shape args = .error msg := by
  induction shape with
  | nil =>
    obtain ⟨fd, hmem, _⟩ := h
    cases hmem
  | cons hd tl ih =>
    obtain ⟨fd, hmem, hbad⟩ := h
    cases hOk : fieldOk args hd with
    | false =>
      exact ⟨"Invalid arguments: field " ++ hd.1, by simp [validateShape, hOk]⟩
    | true =>
      have htl : fd ∈ tl := by
        rcases List.mem_cons.mp hmem with heq | htl
        · subst heq
          rw [hOk] at hbad
          cases hbad
        · exact htl
      obtain ⟨msg, hm⟩ := ih ⟨fd, htl, hbad⟩
      exact ⟨msg, by simp [validateShape, hOk, hm]⟩

/-- Delivering any emission sequence with no active session leaves the
channel in its sessionless state. -/
theorem deliverAll_none (logs : List LogEvent) : deliverAll none logs = none := by
  induction logs with
  | nil => rfl
  | cons e rest ih => simpa [deliverAll, emitLog] using ih

/-- Dispatching greet_name with two string arguments resolves the Action,
passes validation, and reduces to the handler body's outcome. -/
theorem dispatch_greetName (g : List (String × String)) (nm lang : String) :
    dispatchCallAction (server g) "greet_name"
        [("name", .str nm), ("language", .str lang)] =
      (match greetNameInvoke g [("name", .str nm), ("language", .str lang)] with
       | (logs, .ok r) => { result := .ok r, logs := logs, invoked := 1 }
       | (logs, .threw _) =>
         { result := .fault .internalError, logs := logs, invoked := 1 }) := rfl

/-- On an argument object with literal string values, the handler's
destructured parameters are those values. -/
theorem argGet_name (nm lang : String) :
    jsToString (argGet [("name", JsValue.str nm), ("language", JsValue.str lang)] "name")
      = nm := rfl

/-- On an argument object with literal string values, the handler's
destructured parameters are those values. -/
theorem argGet_language (nm lang : String) :
    jsToString (argGet [("name", JsValue.str nm), ("language", JsValue.str lang)] "language")
      = lang := rfl

/-- When the greetings lookup yields no truthy greeting, the greet_name
body logs info then warning and returns the Recoverable Failure. -/
theorem greetNameInvoke_unsupported (g : List (String × String)) (nm lang : String)
    (h : truthy (jsGet g lang) = false) :
    greetNameInvoke g [("name", .str nm), ("language", .str lang)] =
      ([⟨.info, greetInfoMsg nm lang⟩, ⟨.warning, greetWarnMsg lang⟩],
       .ok { content := [.text (greetErrMsg lang)], isError := some true }) := by
  simp only [greetNameInvoke, argGet_name, argGet_language]
  simp [h]

/-- Claim C1: for any name, a call to greet_name whose language the
greetings lookup rejects (the handler's own business-logic condition,
e.g. "klingon") passes schema validation, enters the capability body, and
yields the Success-shaped envelope with isError true and a non-empty
message mentioning that language — never a Protocol Fault. -/
theorem greetName_unsupported_is_recoverable_failure
    (g : List (String × String)) (nm lang : String)
    (h : truthy (jsGet g lang) = false) :
    dispatchCallAction (server g) "greet_name"
        [("name", .str nm), ("language", .str lang)] =
      { result := .ok { content := [.text (greetErrMsg lang)], isError := some true },
        logs := [⟨.info, greetInfoMsg nm lang⟩, ⟨.warning, greetWarnMsg lang⟩],
        invoked := 1 } ∧
    greetErrMsg lang ≠ "" ∧
    (∃ pre post, greetErrMsg lang = pre ++ lang ++ post) := by
  refine ⟨?_, ?_, "Unsupported language: \"",
    "\". Check the languages resource for supported options.", rfl⟩
  · rw [dispatch_greetName, greetNameInvoke_unsupported g nm lang h]
  · intro hEq
    have hlen := congrArg String.length hEq
    simp [greetErrMsg, String.length_append] at hlen
    exact absurd hlen.1.1 (by decide)

/-- Witness for C1 at name "Chuck", language "klingon". -/
theorem greetName_unsupported_is_recoverable_failure_witness :
    truthy (jsGet greetings "klingon") = false ∧
    dispatchCallAction (server greetings) "greet_name"
        [("name", .str "Chuck"), ("language", .str "klingon")] =
      { result := .ok { content := [.text (greetErrMsg "klingon")], isError := some true },
        logs := [⟨.info, greetInfoMsg "Chuck" "klingon"⟩, ⟨.warning, greetWarnMsg "klingon"⟩],
        invoked := 1 } :=
  ⟨rfl, (greetName_unsupported_is_recoverable_failure greetings "Chuck" "klingon" rfl).1⟩

/-- Claim C2: a capability exception not expressed as a Recoverable
Failure — whether from an Action's invoke or a Readable's read — is caught
at the Dispatch Core boundary and converted to Protocol Fault
InternalError; the dispatch result is always a response or fault, never a
propagated exception. -/
theorem dispatch_converts_capability_exception (reg : Registry) (nm : String)
    (args va : ArgObj) (cap : ActionCap) (e : String) (rcap : ResourceCap)
    (uri e2 : String)
    (hres : resolveAction reg nm = some cap)
    (hval : validate cap.inputSchema args = .ok va)
    (hthrew : (cap.invoke va).2 = .threw e)
    (hrres : resolveResource reg uri = some rcap)
    (hrthrew : rcap.read = .threw e2) :
    (dispatchCallAction reg nm args).result = .fault .internalError ∧
    dispatchReadResource reg uri = .fault .internalError := by
  constructor
  · rcases hinv : cap.invoke va with ⟨logs, res⟩
    rw [hinv] at hthrew
    simp only at hthrew
    subst hthrew
    simp [dispatchCallAction, hres, hval, hinv]
  · simp [dispatchReadResource, hrres, hrthrew]

/-- Witness for C2 on a registry holding a throwing Action and a throwing
Readable. -/
theorem dispatch_converts_capability_exception_witness :
    (dispatchCallAction crashReg "crash_tool" []).result = .fault .internalError ∧
    dispatchReadResource crashReg "crash://resource" = .fault .internalError :=
  dispatch_converts_capability_exception crashReg "crash_tool" [] [] crashCap "boom"
    crashResourceCap "crash://resource" "boom" rfl rfl rfl rfl rfl

/-- Claim C3: for every Action with a declared inputShape, a call whose
arguments miss a required field or carry the wrong primitive type yields
Protocol Fault InvalidParams with numeric code -32602, and the
capability's invoke body is never entered. -/
theorem invalid_args_protocol_fault (reg : Registry) (nm : String) (args : ArgObj)
    (cap : ActionCap) (shape : InputShape)
    (hres : resolveAction reg nm = some cap)
    (hshape : cap.inputSchema = some shape)
    (hbad : ∃ fd, fd ∈ shape ∧ fieldOk args fd = false) :
    (dispatchCallAction reg nm args).result = .fault .invalidParams ∧
    faultCode .invalidParams = -32602 ∧
    (dispatchCallAction reg nm args).invoked = 0 := by
  obtain ⟨msg, herr⟩ := validateShape_error_of_bad shape args hbad
  have hv : validate cap.inputSchema args = .error msg := by
    rw [hshape]
    exact herr
  refine ⟨?_, rfl, ?_⟩ <;> simp [dispatchCallAction, hres, hv]

/-- Witness for C3: hello_name called with a numeric name. -/
theorem invalid_args_protocol_fault_witness :
    (dispatchCallAction (server greetings) "hello_name"
        [("name", .num 5)]).result = .fault .invalidParams ∧
    faultCode .invalidParams = -32602 ∧
    (dispatchCallAction (server greetings) "hello_name"
        [("name", .num 5)]).invoked = 0 :=
  invalid_args_protocol_fault (server greetings) "hello_name" [("name", .num 5)]
    helloNameCap [("name", .string)] rfl rfl
    ⟨("name", .string), List.mem_singleton.mpr rfl, rfl⟩

/-- Claim C4: invoking greet_name with a language the greetings lookup
rejects emits exactly two LogEvents, info then warning, in that order, and
both appear on the wire before the isError response of the request. -/
theorem greetName_log_order (g : List (String × String)) (nm lang : String)
    (h : truthy (jsGet g lang) = false) :
    callEvents (dispatchCallAction (server g) "greet_name"
        [("name", .str nm), ("language", .str lang)]) =
      [.log ⟨.info, greetInfoMsg nm lang⟩, .log ⟨.warning, greetWarnMsg lang⟩,
       .response (.ok { content := [.text (greetErrMsg lang)],
                        isError := some true })] := by
  rw [dispatch_greetName, greetNameInvoke_unsupported g nm lang h]
  rfl

/-- Witness for C4 at name "Chuck", language "klingon". -/
theorem greetName_log_order_witness :
    callEvents (dispatchCallAction (server greetings) "greet_name"
        [("name", .str "Chuck"), ("language", .str "klingon")]) =
      [.log ⟨.info, greetInfoMsg "Chuck" "klingon"⟩,
       .log ⟨.warning, greetWarnMsg "klingon"⟩,
       .response (.ok { content := [.text (greetErrMsg "klingon")],
                        isError := some true })] :=
  greetName_log_order greetings "Chuck" "klingon" rfl

/-- Claim C5: with the greetings mapping containing french ↦ Bonjour,
calling greet_name with name Chuck and language french returns exactly the
envelope with the single text item "Bonjour, Chuck!" and no isError flag. -/
theorem greetName_french_success (g : List (String × String))
    (h : ownGet g "french" = some "Bonjour") :
    (dispatchCallAction (server g) "greet_name"
        [("name", .str "Chuck"), ("language", .str "french")]).result =
      .ok { content := [.text "Bonjour, Chuck!"], isError := none } := by
  have hj : jsGet g "french" = .str "Bonjour" := by
    unfold jsGet
    rw [h]
  have key : greetNameInvoke g [("name", .str "Chuck"), ("language", .str "french")] =
      ([⟨.info, greetInfoMsg "Chuck" "french"⟩, ⟨.debug, greetDebugMsg "Bonjour"⟩],
       .ok { content := [.text "Bonjour, Chuck!"], isError := none }) := by
    simp only [greetNameInvoke, argGet_name, argGet_language, hj]
    rfl
  rw [dispatch_greetName, key]

/-- Witness for C5 at the modelled greetings mapping. -/
theorem greetName_french_success_witness :
    ownGet greetings "french" = some "Bonjour" ∧
    (dispatchCallAction (server greetings) "greet_name"
        [("name", .str "Chuck"), ("language", .str "french")]).result =
      .ok { content := [.text "Bonjour, Chuck!"], isError := none } :=
  ⟨rfl, greetName_french_success greetings rfl⟩

/-- Claim C6: hello_world declares no inputShape, accepts any argument
mapping (including the empty one) without inspection, and every invocation
enters the body and returns exactly the Hello, World! envelope. -/
theorem helloWorld_accepts_any_args (g : List (String × String)) (args : ArgObj) :
    dispatchCallAction (server g) "hello_world" args =
      { result := .ok { content := [.text "Hello, World!"], isError := none },
        logs := [], invoked := 1 } := rfl

/-- Claim C7: listActions returns the four registered Actions in
registration order with their registered name and description, leaves the
registry unchanged, and a repeated call returns the same ordered set;
likewise listResources for the languages resource. -/
theorem listing_deterministic (g : List (String × String)) :
    (listActions (server g)).1 =
      [⟨"hello_world", "Returns a Hello, World! greeting"⟩,
       ⟨"hello_name", "Returns a personalized Hello greeting"⟩,
       ⟨"greet_name", "Returns a personalized greeting in the specified language. Check the languages resource for supported languages."⟩,
       ⟨"list_languages", "Returns the list of supported greeting languages"⟩] ∧
    (listActions (server g)).2 = server g ∧
    (listActions ((listActions (server g)).2)).1 = (listActions (server g)).1 ∧
    (listResources (server g)).1 =
      [⟨"languages", "languages://list", "List of supported greeting languages",
        "application/json"⟩] ∧
    (listResources ((listResources (server g)).2)).1 = (listResources (server g)).1 :=
  ⟨rfl, rfl, rfl, rfl, rfl⟩

/-- Claim C8: reading the languages resource returns the resource-read
envelope whose single item has uri exactly "languages://list" and text the
JSON serialization of the supported language keys of the greetings
mapping; at the modelled mapping the text is the literal two-space
indented array. -/
theorem languages_resource_envelope (g : List (String × String)) :
    dispatchReadResource (server g) "languages://list" =
      .ok { contents := [{ uri := "languages://list",
                           text := jsonStringifyKeys2 (objKeys g) }] } ∧
    languagesReader greetings =
      { contents := [{ uri := "languages://list", text := "[\n  \"french\"\n]" }] } :=
  ⟨rfl, rfl⟩

/-- Claim C9: with no active transport session, emitting a LogEvent
through the Notification Channel is a no-op — it delivers nothing, raises
nothing, and the invocation's own outcome is the same as with a bound
session. -/
theorem emit_no_session_noop (e : LogEvent) (body : List LogEvent × InvokeResult) :
    emitLog none e = none ∧
    runInvocation none body = (none, body.2) ∧
    (runInvocation none body).2 = (runInvocation (some []) body).2 :=
  ⟨rfl, by simp [runInvocation, deliverAll_none], rfl⟩

/-- Claim C10: evaluation at the failing input. The supported set exposed
by list_languages and the languages resource is exactly ["french"], the
string "constructor" is outside it, yet greet_name called with language
"constructor" returns a non-error envelope: the plain-object bracket
lookup greetings[language] finds the inherited Object.prototype
constructor, which is truthy, so the unsupported-language branch is never
taken. -/
theorem greetName_constructor_lookup_bug :
    objKeys greetings = ["french"] ∧
    "constructor" ∉ objKeys greetings ∧
    (dispatchCallAction (server greetings) "list_languages" []).result =
      .ok { content := [.text "french"], isError := none } ∧
    dispatchReadResource (server greetings) "languages://list" =
      .ok { contents := [{ uri := "languages://list", text := "[\n  \"french\"\n]" }] } ∧
    (dispatchCallAction (server greetings) "greet_name"
        [("name", .str "Chuck"), ("language", .str "constructor")]).result =
      .ok { content := [.text "function Object() \x7b [native code] \x7d, Chuck!"],
            isError := none } :=
  ⟨rfl, by decide, rfl, rfl, rfl⟩

end HelloMcp
